import Mathlib

/-!
Verification development for the IP-Security repository.

This file gives a shallow embedding of `src/examples/blocklist_manager.py`
(class `BlocklistManager`) and settles the frozen claims about it.

Modelling conventions:
- Machine integers are `Nat` (addresses fit in 32 or 128 bits; all masking is
  explicit, exactly as the Python `ipaddress` module computes
  `ip & netmask == network_address` on unbounded ints).
- The Python `set` field `blocked_ips` is modelled as a `List NetworkEntry`
  kept duplicate-free by `setAdd`; iteration order of the model is insertion
  order (CPython set iteration order is unspecified, so any fixed order is a
  legal refinement, and order-dependent claims are judged against it).
- File I/O is external: `load_blocklist` receives the file's lines, and
  `export_to_format` returns the text written to the output file together
  with the message printed to stdout.
- The standard-library calls `ipaddress.ip_address` / `ipaddress.ip_network`
  (strict=False) are modelled for IPv4 dotted-quad text (octets are decimal,
  at most 3 digits, no leading zeros, value at most 255; CIDR suffix is a
  decimal prefix length).  IPv6 textual forms are outside the model — no
  claim evaluates an IPv6 literal — but IPv6 entries exist in the data model
  (`Family.v6`) exactly as `ipaddress.IPv6Network` values exist in the set.
-/

namespace IPSec

/-- Address family tag: Python `ipaddress` objects report `version` 4 or 6. -/
inductive Family where
  | v4
  | v6
deriving DecidableEq, Repr

/-- Numeric `version` attribute of an `ipaddress` object. -/
def Family.version : Family → Nat
  | .v4 => 4
  | .v6 => 6

/-- Bit width of an address of this family (`max_prefixlen` in Python). -/
def Family.width : Family → Nat
  | .v4 => 32
  | .v6 => 128

/-- An `ipaddress.IPv4Network` / `IPv6Network` value: family, numeric network
address (`int(network.network_address)`), and prefix length. -/
structure NetworkEntry where
  family : Family
  base : Nat
  prefixLen : Nat
deriving DecidableEq, Repr

/-- An `ipaddress.IPv4Address` / `IPv6Address` value. -/
structure IPAddr where
  family : Family
  value : Nat
deriving DecidableEq, Repr

/-- Integer value of the netmask for prefix length `p` in an address of
`w` bits: the top `p` bits set, `2^w - 2^(w-p)`. -/
def netmaskVal (w p : Nat) : Nat := 2 ^ w - 2 ^ (w - p)

/-- Python `ip in network` (`_BaseNetwork.__contains__`): version must match
and `int(ip) & int(network.netmask) == int(network.network_address)`. -/
def addrInNetwork (ip : IPAddr) (n : NetworkEntry) : Bool :=
  ip.family == n.family &&
    (ip.value &&& netmaskVal n.family.width n.prefixLen) == n.base

/-! ### Decimal text: `str(int)` and the digit parsing inside `ipaddress` -/

/-- Character for the decimal digit `d` (`d` at most 9). -/
def digitChar (d : Nat) : Char := Char.ofNat (48 + d)

/-- Decimal digits of `n`, most significant first, via explicit fuel so the
definition is structural and kernel-reducible.  `natToDec` supplies enough
fuel for any input. -/
def natToDigitsAux : Nat → Nat → List Char
  | 0, _ => []
  | fuel + 1, n =>
    if n < 10 then [digitChar n]
    else natToDigitsAux fuel (n / 10) ++ [digitChar (n % 10)]

/-- Decimal rendering of a natural number, as Python `str(int)` produces. -/
def natToDec (n : Nat) : String := ⟨natToDigitsAux (n + 1) n⟩

/-- Numeric value of a list of decimal digit characters. -/
def digitsVal (cs : List Char) : Nat :=
  cs.foldl (fun a c => a * 10 + (c.toNat - 48)) 0

/-- Syntactic check `ipaddress._parse_octet` performs on one IPv4 octet:
nonempty, all decimal digits, at most 3 characters, no leading zero. -/
def octetOk (cs : List Char) : Bool :=
  !cs.isEmpty && cs.all Char.isDigit && cs.length ≤ 3 &&
    (cs.length == 1 || cs.head? != some '0')

/-- Parse one IPv4 octet (`ipaddress._parse_octet`): syntactic check plus
the numeric bound 255. -/
def parseOctet (cs : List Char) : Option Nat :=
  if octetOk cs ∧ digitsVal cs ≤ 255 then some (digitsVal cs) else none

/-- Split a character list on a separator; `splitOnChar c l` never returns
the empty list (Python `str.split` on the address/prefix text). -/
def splitOnChar (sep : Char) : List Char → List (List Char)
  | [] => [[]]
  | c :: cs =>
    if c = sep then [] :: splitOnChar sep cs
    else
      match splitOnChar sep cs with
      | [] => [[c]]
      | g :: gs => (c :: g) :: gs

/-- Numeric value of an IPv4 dotted-quad text (`ipaddress._ip_int_from_string`
for IPv4): exactly four octets joined by dots. -/
def parseIPv4chars (cs : List Char) : Option Nat :=
  match splitOnChar '.' cs with
  | [o1, o2, o3, o4] =>
    match parseOctet o1, parseOctet o2, parseOctet o3, parseOctet o4 with
    | some a, some b, some c, some d =>
      some (a * 16777216 + b * 65536 + c * 256 + d)
    | _, _, _, _ => none
  | _ => none

/-- Parse a prefix-length suffix (`ipaddress._make_netmask`): nonempty ascii
digit string whose value is at most `maxLen`.  Python accepts leading zeros
here (`int("08") = 8`), so only digit-ness and the bound are checked. -/
def parsePrefixLen (maxLen : Nat) (cs : List Char) : Option Nat :=
  if (!cs.isEmpty && cs.all Char.isDigit) ∧ digitsVal cs ≤ maxLen then
    some (digitsVal cs)
  else none

/-- Models `ipaddress.ip_address(s)` for IPv4 dotted-quad text (IPv6 textual
forms are outside the model, see the file header).  On failure the returned
message is the `ValueError` text Python raises. -/
def ipAddressParse (s : String) : Except String IPAddr :=
  match parseIPv4chars s.toList with
  | some v => .ok ⟨.v4, v⟩
  | none =>
    .error ("'" ++ s ++ "' does not appear to be an IPv4 or IPv6 address")

/-- Models `ipaddress.ip_network(s, strict=False)` for IPv4 text: an
optional `/prefix` suffix (at most one slash), and the network address is
the given address masked to the prefix — host bits are zeroed, never cause a
rejection, exactly the `strict=False` behaviour the source relies on. -/
def ipNetworkParse (s : String) : Except String NetworkEntry :=
  match splitOnChar '/' s.toList with
  | [addr] =>
    match parseIPv4chars addr with
    | some v => .ok ⟨.v4, v &&& netmaskVal 32 32, 32⟩
    | none =>
      .error ("'" ++ s ++ "' does not appear to be an IPv4 or IPv6 network")
  | [addr, plen] =>
    match parseIPv4chars addr, parsePrefixLen 32 plen with
    | some v, some p => .ok ⟨.v4, v &&& netmaskVal 32 p, p⟩
    | _, _ =>
      .error ("'" ++ s ++ "' does not appear to be an IPv4 or IPv6 network")
  | _ => .error ("Only one '/' permitted in '" ++ s ++ "'")

/-! ### Rendering: `str(network)` -/

/-- Python `str(IPv4Address)`: dotted quad of the four bytes. -/
def renderV4 (v : Nat) : String :=
  natToDec ((v >>> 24) &&& 255) ++ "." ++ natToDec ((v >>> 16) &&& 255) ++
    "." ++ natToDec ((v >>> 8) &&& 255) ++ "." ++ natToDec (v &&& 255)

/-- Hex character for `d` at most 15, lowercase as Python prints IPv6. -/
def hexChar (d : Nat) : Char :=
  if d < 10 then Char.ofNat (48 + d) else Char.ofNat (87 + d)

/-- One 16-bit IPv6 group in lowercase hex. -/
def renderHex16 (v : Nat) : String :=
  ⟨[hexChar ((v >>> 12) &&& 15), hexChar ((v >>> 8) &&& 15),
    hexChar ((v >>> 4) &&& 15), hexChar (v &&& 15)]⟩

/-- IPv6 address text as eight colon-separated hex groups.  Python
additionally compresses the longest zero run to `::`; no claim evaluates an
IPv6 string, so the uncompressed form stands in for it. -/
def renderV6 (v : Nat) : String :=
  String.intercalate ":"
    (((List.range 8).map (fun i => renderHex16 ((v >>> (112 - 16 * i)) &&& 65535))))

/-- Python `str(address)` for the numeric address `v` of family `f`. -/
def renderAddr (f : Family) (v : Nat) : String :=
  match f with
  | .v4 => renderV4 v
  | .v6 => renderV6 v

/-- Python `str(network)`: address text, slash, prefix length. -/
def renderNetwork (n : NetworkEntry) : String :=
  renderAddr n.family n.base ++ "/" ++ natToDec n.prefixLen

/-! ### The manager state and its operations -/

/-- Python `set.add` on `self.blocked_ips`: a no-op when the network is
already present, otherwise the network joins the set.  The model keeps the
set as a duplicate-free list in insertion order. -/
def setAdd (st : List NetworkEntry) (n : NetworkEntry) : List NetworkEntry :=
  if n ∈ st then st else st ++ [n]

/-- Leading-character test `line.startswith('#')`. -/
def startsHash (l : String) : Bool :=
  match l.data with
  | '#' :: _ => true
  | _ => false

/-- Python `str.strip()` on the character list: drop leading and trailing
whitespace (standard ascii whitespace suffices for the inputs modelled). -/
def stripChars (cs : List Char) : List Char :=
  ((cs.dropWhile Char.isWhitespace).reverse.dropWhile Char.isWhitespace).reverse

/-- Python `line.strip()`. -/
def strip (s : String) : String := ⟨stripChars s.data⟩

/-- Classification of one input line by `load_blocklist`'s loop: skipped
(empty or comment), parsed to the network it adds, or a parse failure.  The
branch structure is exactly the loop's. -/
def lineEntry (line : String) : Option NetworkEntry :=
  let l := strip line
  if l.data.isEmpty || startsHash l then none
  else
    match ipNetworkParse l with
    | .ok n => some n
    | .error _ => none

/-- Whether one input line makes `load_blocklist` print a warning: it is not
skipped and fails to parse. -/
def lineBad (line : String) : Bool :=
  let l := strip line
  if l.data.isEmpty || startsHash l then false
  else
    match ipNetworkParse l with
    | .ok _ => false
    | .error _ => true

/-- The `for line_num, line in enumerate(f, 1)` loop of
`BlocklistManager.load_blocklist`: strip, skip blank and `#` lines, parse
with `ip_network(line, strict=False)`, add to the set and count on success,
collect the printed warning on a `ValueError`.  Returns the updated set, the
count, and the warnings printed. -/
def loadLines (blocked : List NetworkEntry) (count : Nat) (warnings : List String)
    (lineNum : Nat) : List String → List NetworkEntry × Nat × List String
  | [] => (blocked, count, warnings)
  | line :: rest =>
    let l := strip line
    if l.data.isEmpty || startsHash l then
      loadLines blocked count warnings (lineNum + 1) rest
    else
      match ipNetworkParse l with
      | .ok network =>
        loadLines (setAdd blocked network) (count + 1) warnings (lineNum + 1) rest
      | .error e =>
        loadLines blocked count
          (warnings ++
            ["Warning: Invalid IP at line " ++ natToDec lineNum ++ ": " ++
              l.data.asString ++ " - " ++ e])
          (lineNum + 1) rest

/-- `BlocklistManager.load_blocklist` given the file's lines (file I/O is the
external collaborator): runs the line loop from an initial count of 0. -/
def load_blocklist (blocked : List NetworkEntry) (lines : List String) :
    List NetworkEntry × Nat × List String :=
  loadLines blocked 0 [] 1 lines

/-- Networks added by the parse-ok lines of an input, in order. -/
def goodEntries (lines : List String) : List NetworkEntry :=
  lines.filterMap lineEntry

/-- Number of lines of an input that trigger a warning. -/
def badLineCount (lines : List String) : Nat := (lines.filter lineBad).length

/-- `BlocklistManager.is_blocked`: parse the queried text with
`ip_address`, scan the set for the first containing network and return
`(True, str(network))`, `(False, "")` when none contains it, or
`(False, "Invalid IP: ...")` when parsing raises `ValueError`.  The method
only reads `blocked_ips`; the embedding accordingly returns no new state. -/
def is_blocked (blocked_ips : List NetworkEntry) (ip_addr : String) :
    Bool × String :=
  match ipAddressParse ip_addr with
  | .ok ip =>
    match blocked_ips.find? (fun network => addrInNetwork ip network) with
    | some network => (true, renderNetwork network)
    | none => (false, "")
  | .error e => (false, "Invalid IP: " ++ e)

/-- Number of networks the scan loop of `is_blocked` examines on the list
`l` for the parsed address `ip` (one per iteration of `for network in
self.blocked_ips`, stopping at the first hit). -/
def scanSteps (ip : IPAddr) : List NetworkEntry → Nat
  | [] => 0
  | n :: rest => if addrInNetwork ip n then 1 else 1 + scanSteps ip rest

/-- Loop iterations `is_blocked` performs for a query: zero when the address
fails to parse, otherwise the networks examined until the first hit (all of
them when none matches). -/
def is_blocked_steps (blocked_ips : List NetworkEntry) (ip_addr : String) : Nat :=
  match ipAddressParse ip_addr with
  | .ok ip => scanSteps ip blocked_ips
  | .error _ => 0

/-! ### Sorting and export -/

/-- Order used by Python `sorted` on networks of one family
(`_BaseNetwork.__lt__`: network address first, then netmask, i.e. prefix
length), extended lexicographically by the family tag.  Python raises on a
cross-family comparison and `_sort_networks` never makes one, so the
extension is unobservable on the source's calls. -/
def netLe (a b : NetworkEntry) : Prop :=
  a.family.version < b.family.version ∨
    (a.family.version = b.family.version ∧
      (a.base < b.base ∨ (a.base = b.base ∧ a.prefixLen ≤ b.prefixLen)))

instance : DecidableRel netLe := fun a b => by
  unfold netLe; infer_instance

/-- `BlocklistManager._sort_networks`: the sorted IPv4 networks followed by
the sorted IPv6 networks (Python `sorted` is modelled by insertion sort — any
correct stable sort; ties cannot arise since the set has no duplicates). -/
def sort_networks (blocked_ips : List NetworkEntry) : List NetworkEntry :=
  List.insertionSort netLe (blocked_ips.filter (fun n => n.family.version == 4)) ++
    List.insertionSort netLe (blocked_ips.filter (fun n => n.family.version == 6))

/-- JSON string literal for a network text (no escapable characters occur in
network strings). -/
def jsonStr (s : String) : String := "\"" ++ s ++ "\""

/-- Rendering of a JSON string array as `json.dump(..., indent=2)` nests it
two levels deep. -/
def renderJsonList (items : List String) : String :=
  match items with
  | [] => "[]"
  | _ =>
    "[\n" ++ String.intercalate ",\n" (items.map (fun s => "    " ++ jsonStr s)) ++
      "\n  ]"

/-- Text `json.dump(data, f, indent=2)` writes for the dict the `json`
branch builds: exactly the two keys `blocked_ips` and `total_count`. -/
def renderJsonExport (blocked : List String) (total : Nat) : String :=
  "\x7b\n  " ++ jsonStr "blocked_ips" ++ ": " ++ renderJsonList blocked ++
    ",\n  " ++ jsonStr "total_count" ++ ": " ++ natToDec total ++ "\n\x7d"

/-- `BlocklistManager.export_to_format`: returns the text written to
`output_file` and the message printed to stdout.  A `format_type` matching
no branch writes nothing; the success message is printed regardless. -/
def export_to_format (blocked_ips : List NetworkEntry) (output_file : String)
    (format_type : String) : String × String :=
  let sorted_networks := sort_networks blocked_ips
  let content :=
    if format_type == "plain" then
      String.join (sorted_networks.map (fun n => renderNetwork n ++ "\n"))
    else if format_type == "iptables" then
      "#!/bin/bash\n# Generated iptables rules\n\n" ++
        String.join (sorted_networks.map
          (fun n => "iptables -A INPUT -s " ++ renderNetwork n ++ " -j DROP\n"))
    else if format_type == "nginx" then
      "# Generated nginx geo block\ngeo $blocked_ip \x7b\n    default 0;\n" ++
        String.join (sorted_networks.map
          (fun n => "    " ++ renderNetwork n ++ " 1;\n")) ++ "\x7d\n"
    else if format_type == "apache" then
      "# Generated Apache blocklist\n<RequireAll>\n    Require all granted\n" ++
        String.join (sorted_networks.map
          (fun n => "    Require not ip " ++ renderNetwork n ++ "\n")) ++
        "</RequireAll>\n"
    else if format_type == "json" then
      renderJsonExport (sorted_networks.map renderNetwork) blocked_ips.length
    else ""
  (content,
    "Exported " ++ natToDec blocked_ips.length ++ " entries to " ++ output_file ++
      " (" ++ format_type ++ " format)")

/-- Insert a sequence of entries into an empty set through `set.add`, the
way any load order materialises a manager state. -/
def buildSet (l : List NetworkEntry) : List NetworkEntry :=
  l.foldl setAdd []

/-! ### Arithmetic facts about netmasks -/

theorem and_highmask {x w k : Nat} (hx : x < 2 ^ w) (hk : k ≤ w) :
    x &&& (2 ^ w - 2 ^ k) = 2 ^ k * (x / 2 ^ k) := by
  have hmask : 2 ^ w - 2 ^ k = (2 ^ (w - k) - 1) <<< k := by
    rw [Nat.shiftLeft_eq, Nat.sub_mul, one_mul, ← Nat.pow_add, Nat.sub_add_cancel hk]
  have hr : 2 ^ k * (x / 2 ^ k) = (x >>> k) <<< k := by
    rw [Nat.shiftRight_eq_div_pow, Nat.shiftLeft_eq, Nat.mul_comm]
  rw [hmask, hr]
  apply Nat.eq_of_testBit_eq
  intro i
  simp only [Nat.testBit_and, Nat.testBit_shiftLeft, Nat.testBit_shiftRight,
    Nat.testBit_two_pow_sub_one]
  by_cases hik : k ≤ i
  · by_cases hiw : i < w
    · have h1 : k + (i - k) = i := by omega
      have h2 : i - k < w - k := by omega
      simp [hik, hiw, h1, h2, ge_iff_le]
    · have hxi : x.testBit i = false := by
        apply Nat.testBit_lt_two_pow
        exact lt_of_lt_of_le hx (Nat.pow_le_pow_right (by omega) (by omega))
      have hxk : x.testBit (k + (i - k)) = false := by
        have h1 : k + (i - k) = i := by omega
        rw [h1, hxi]
      simp [hxi, hxk]
  · simp [ge_iff_le, hik]

/-- Containment in a network is containment in the numeric interval: when
`x &&& netmask = base` holds, `x` lies in `[base, base + 2^(w-p))`. -/
theorem mask_range {x w p : Nat} (hx : x < 2 ^ w) :
    x &&& netmaskVal w p ≤ x ∧ x < (x &&& netmaskVal w p) + 2 ^ (w - p) := by
  unfold netmaskVal
  rw [and_highmask hx (Nat.sub_le w p)]
  have hdm := Nat.div_add_mod x (2 ^ (w - p))
  have hm : x % 2 ^ (w - p) < 2 ^ (w - p) := Nat.mod_lt x (Nat.two_pow_pos _)
  omega

/-! ### Bounds produced by the parser -/

theorem parseOctet_le {cs : List Char} {v : Nat} (h : parseOctet cs = some v) :
    v ≤ 255 := by
  unfold parseOctet at h
  split at h
  · rename_i hc
    cases h
    exact hc.2
  · cases h

theorem parseIPv4chars_lt {cs : List Char} {v : Nat}
    (h : parseIPv4chars cs = some v) : v < 4294967296 := by
  unfold parseIPv4chars at h
  split at h
  · split at h
    · rename_i a b c d ha hb hc hd
      cases h
      have h1 := parseOctet_le ha
      have h2 := parseOctet_le hb
      have h3 := parseOctet_le hc
      have h4 := parseOctet_le hd
      omega
    · cases h
  · cases h

theorem ipAddressParse_ok {s : String} {ip : IPAddr}
    (h : ipAddressParse s = .ok ip) :
    ip.family = Family.v4 ∧ ip.value < 4294967296 := by
  unfold ipAddressParse at h
  split at h
  · rename_i v hv
    cases h
    exact ⟨rfl, parseIPv4chars_lt hv⟩
  · cases h

/-! ### Set facts: `setAdd` and `buildSet` -/

theorem mem_setAdd {st : List NetworkEntry} {n a : NetworkEntry} :
    a ∈ setAdd st n ↔ a ∈ st ∨ a = n := by
  unfold setAdd
  split
  · rename_i hmem
    constructor
    · exact Or.inl
    · rintro (h | rfl)
      · exact h
      · exact hmem
  · simp

theorem nodup_setAdd {st : List NetworkEntry} {n : NetworkEntry}
    (h : st.Nodup) : (setAdd st n).Nodup := by
  unfold setAdd
  split
  · exact h
  · rename_i hn
    simp [List.nodup_append, h, hn]

theorem mem_foldl_setAdd {l : List NetworkEntry} :
    ∀ {st a}, a ∈ l.foldl setAdd st ↔ a ∈ st ∨ a ∈ l := by
  induction l with
  | nil => simp
  | cons x xs ih =>
    intro st a
    rw [List.foldl_cons, ih, mem_setAdd]
    simp
    tauto

theorem nodup_foldl_setAdd {l : List NetworkEntry} :
    ∀ {st : List NetworkEntry}, st.Nodup → (l.foldl setAdd st).Nodup := by
  induction l with
  | nil => exact fun h => h
  | cons x xs ih =>
    intro st h
    rw [List.foldl_cons]
    exact ih (nodup_setAdd h)

theorem mem_buildSet {l : List NetworkEntry} {a : NetworkEntry} :
    a ∈ buildSet l ↔ a ∈ l := by
  unfold buildSet
  rw [mem_foldl_setAdd]
  simp

theorem nodup_buildSet {l : List NetworkEntry} : (buildSet l).Nodup :=
  nodup_foldl_setAdd List.nodup_nil

/-- Loading permuted inputs materialises permuted sets: the set contents are
the input's elements and the set has no duplicates, so order of insertion
only permutes it. -/
theorem buildSet_perm {l₁ l₂ : List NetworkEntry} (h : l₁.Perm l₂) :
    (buildSet l₁).Perm (buildSet l₂) := by
  refine (List.perm_ext_iff_of_nodup nodup_buildSet nodup_buildSet).2 ?_
  intro a
  rw [mem_buildSet, mem_buildSet]
  exact h.mem_iff

/-! ### The canonical order on entries -/

theorem Family.version_inj : ∀ {f g : Family}, f.version = g.version → f = g := by
  intro f g h
  cases f <;> cases g <;> simp_all [Family.version]

theorem netLe_total (a b : NetworkEntry) : netLe a b ∨ netLe b a := by
  unfold netLe
  omega

theorem netLe_trans {a b c : NetworkEntry} (h₁ : netLe a b) (h₂ : netLe b c) :
    netLe a c := by
  unfold netLe at h₁ h₂ ⊢
  omega

theorem netLe_antisymm {a b : NetworkEntry} (h₁ : netLe a b) (h₂ : netLe b a) :
    a = b := by
  obtain ⟨fa, ba, pa⟩ := a
  obtain ⟨fb, bb, pb⟩ := b
  unfold netLe at h₁ h₂
  simp only at h₁ h₂
  have hv : fa.version = fb.version := by omega
  have hf : fa = fb := Family.version_inj hv
  subst hf
  have hb : ba = bb := by omega
  have hp : pa = pb := by omega
  subst hb
  subst hp
  rfl

instance : IsTotal NetworkEntry netLe := ⟨netLe_total⟩

instance : IsTrans NetworkEntry netLe := ⟨fun _ _ _ => netLe_trans⟩

instance : IsAntisymm NetworkEntry netLe := ⟨fun _ _ => netLe_antisymm⟩

theorem mem_sort_filter {st : List NetworkEntry} {v : Nat} {x : NetworkEntry}
    (hx : x ∈ List.insertionSort netLe
      (st.filter (fun n => n.family.version == v))) :
    x.family.version = v := by
  have hm := (List.perm_insertionSort netLe _).mem_iff.1 hx
  have := List.mem_filter.1 hm
  simpa using this.2

theorem sorted_sort_networks (st : List NetworkEntry) :
    List.Sorted netLe (sort_networks st) := by
  unfold sort_networks
  refine List.pairwise_append.2
    ⟨List.sorted_insertionSort netLe _, List.sorted_insertionSort netLe _, ?_⟩
  intro x hx y hy
  have hx4 := mem_sort_filter hx
  have hy6 := mem_sort_filter hy
  unfold netLe
  omega

theorem sort_networks_perm (st : List NetworkEntry) :
    (sort_networks st).Perm
      (st.filter (fun n => n.family.version == 4) ++
        st.filter (fun n => n.family.version == 6)) :=
  (List.perm_insertionSort netLe _).append (List.perm_insertionSort netLe _)

theorem sort_networks_eq_of_perm {st₁ st₂ : List NetworkEntry}
    (h : st₁.Perm st₂) : sort_networks st₁ = sort_networks st₂ := by
  refine List.eq_of_perm_of_sorted ?_ (sorted_sort_networks st₁)
    (sorted_sort_networks st₂)
  have pf : (st₁.filter (fun n => n.family.version == 4) ++
        st₁.filter (fun n => n.family.version == 6)).Perm
      (st₂.filter (fun n => n.family.version == 4) ++
        st₂.filter (fun n => n.family.version == 6)) :=
    (h.filter _).append (h.filter _)
  exact (sort_networks_perm st₁).trans (pf.trans (sort_networks_perm st₂).symm)

/-! ### Behaviour of the load loop, one line at a time -/

theorem lineEntry_skip {line : String}
    (h : ((strip line).data.isEmpty || startsHash (strip line)) = true) :
    lineEntry line = none ∧ lineBad line = false := by
  unfold lineEntry lineBad
  simp [h]

theorem lineEntry_ok {line : String} {v : NetworkEntry}
    (h1 : ((strip line).data.isEmpty || startsHash (strip line)) = false)
    (h2 : ipNetworkParse (strip line) = .ok v) :
    lineEntry line = some v ∧ lineBad line = false := by
  unfold lineEntry lineBad
  simp [h1, h2]

theorem lineEntry_err {line : String} {e : String}
    (h1 : ((strip line).data.isEmpty || startsHash (strip line)) = false)
    (h2 : ipNetworkParse (strip line) = .error e) :
    lineEntry line = none ∧ lineBad line = true := by
  unfold lineEntry lineBad
  simp [h1, h2]

theorem loadLines_cons_skip {line : String} {rest : List String}
    {st : List NetworkEntry} {c : Nat} {w : List String} {n : Nat}
    (h : ((strip line).data.isEmpty || startsHash (strip line)) = true) :
    loadLines st c w n (line :: rest) = loadLines st c w (n + 1) rest := by
  simp [loadLines, h]

theorem loadLines_cons_ok {line : String} {rest : List String}
    {st : List NetworkEntry} {c : Nat} {w : List String} {n : Nat}
    {v : NetworkEntry}
    (h1 : ((strip line).data.isEmpty || startsHash (strip line)) = false)
    (h2 : ipNetworkParse (strip line) = .ok v) :
    loadLines st c w n (line :: rest) =
      loadLines (setAdd st v) (c + 1) w (n + 1) rest := by
  simp [loadLines, h1, h2]

theorem loadLines_cons_err {line : String} {rest : List String}
    {st : List NetworkEntry} {c : Nat} {w : List String} {n : Nat}
    {e : String}
    (h1 : ((strip line).data.isEmpty || startsHash (strip line)) = false)
    (h2 : ipNetworkParse (strip line) = .error e) :
    loadLines st c w n (line :: rest) =
      loadLines st c
        (w ++ ["Warning: Invalid IP at line " ++ natToDec n ++ ": " ++
          (strip line).data.asString ++ " - " ++ e]) (n + 1) rest := by
  simp [loadLines, h1, h2]

theorem loadLines_count (lines : List String) :
    ∀ (st : List NetworkEntry) (c : Nat) (w : List String) (n : Nat),
      (loadLines st c w n lines).2.1 = c + (goodEntries lines).length := by
  induction lines with
  | nil => intro st c w n; simp [loadLines, goodEntries]
  | cons line rest ih =>
    intro st c w n
    cases hskip : ((strip line).data.isEmpty || startsHash (strip line)) with
    | true =>
      rw [loadLines_cons_skip hskip, ih]
      simp [goodEntries, List.filterMap_cons, (lineEntry_skip hskip).1]
    | false =>
      cases hp : ipNetworkParse (strip line) with
      | ok v =>
        rw [loadLines_cons_ok hskip hp, ih]
        simp [goodEntries, List.filterMap_cons, (lineEntry_ok hskip hp).1]
        omega
      | error e =>
        rw [loadLines_cons_err hskip hp, ih]
        simp [goodEntries, List.filterMap_cons, (lineEntry_err hskip hp).1]

theorem loadLines_warns (lines : List String) :
    ∀ (st : List NetworkEntry) (c : Nat) (w : List String) (n : Nat),
      (loadLines st c w n lines).2.2.length = w.length + badLineCount lines := by
  induction lines with
  | nil => intro st c w n; simp [loadLines, badLineCount]
  | cons line rest ih =>
    intro st c w n
    cases hskip : ((strip line).data.isEmpty || startsHash (strip line)) with
    | true =>
      rw [loadLines_cons_skip hskip, ih]
      simp [badLineCount, List.filter_cons, (lineEntry_skip hskip).2]
    | false =>
      cases hp : ipNetworkParse (strip line) with
      | ok v =>
        rw [loadLines_cons_ok hskip hp, ih]
        simp [badLineCount, List.filter_cons, (lineEntry_ok hskip hp).2]
      | error e =>
        rw [loadLines_cons_err hskip hp, ih]
        simp [badLineCount, List.filter_cons, (lineEntry_err hskip hp).2]
        omega

theorem mem_loadLines (lines : List String) :
    ∀ {st : List NetworkEntry} {c : Nat} {w : List String} {n : Nat}
      {a : NetworkEntry}, a ∈ st ∨ a ∈ goodEntries lines →
      a ∈ (loadLines st c w n lines).1 := by
  induction lines with
  | nil =>
    intro st c w n a h
    simpa [loadLines, goodEntries] using h
  | cons line rest ih =>
    intro st c w n a h
    cases hskip : ((strip line).data.isEmpty || startsHash (strip line)) with
    | true =>
      rw [loadLines_cons_skip hskip]
      apply ih
      rcases h with h | h
      · exact Or.inl h
      · right
        simpa [goodEntries, List.filterMap_cons, (lineEntry_skip hskip).1] using h
    | false =>
      cases hp : ipNetworkParse (strip line) with
      | ok v =>
        rw [loadLines_cons_ok hskip hp]
        apply ih
        rcases h with h | h
        · exact Or.inl (mem_setAdd.2 (Or.inl h))
        · rw [goodEntries, List.filterMap_cons, (lineEntry_ok hskip hp).1] at h
          rcases List.mem_cons.1 h with h | h
          · exact Or.inl (mem_setAdd.2 (Or.inr h))
          · exact Or.inr h
      | error e =>
        rw [loadLines_cons_err hskip hp]
        apply ih
        rcases h with h | h
        · exact Or.inl h
        · right
          simpa [goodEntries, List.filterMap_cons, (lineEntry_err hskip hp).1] using h

/-! ### Scan length -/

theorem scanSteps_le (ip : IPAddr) (l : List NetworkEntry) :
    scanSteps ip l ≤ l.length := by
  induction l with
  | nil => simp [scanSteps]
  | cons n rest ih =>
    unfold scanSteps
    split
    · simp
    · simp only [List.length_cons]
      omega

/-! ### Round trip of rendered CIDR tokens through the parser -/

theorem dot_data : ("." : String).data = ['.'] := rfl

theorem slash_data : ("/" : String).data = ['/'] := rfl

theorem byte_lt_256 (x : Nat) : x &&& 255 < 256 :=
  Nat.lt_succ_of_le Nat.and_le_right

set_option maxRecDepth 10000 in
theorem octet_facts : ∀ o : Nat, o < 256 →
    parseOctet (natToDigitsAux (o + 1) o) = some o ∧
    '.' ∉ natToDigitsAux (o + 1) o ∧ '/' ∉ natToDigitsAux (o + 1) o := by
  decide

theorem prefixLen_facts : ∀ p : Nat, p < 33 →
    parsePrefixLen 32 (natToDigitsAux (p + 1) p) = some p ∧
    '/' ∉ natToDigitsAux (p + 1) p := by
  decide

theorem splitOnChar_not_mem {sep : Char} {cs : List Char} (h : sep ∉ cs) :
    splitOnChar sep cs = [cs] := by
  induction cs with
  | nil => rfl
  | cons c cs ih =>
    rw [List.mem_cons] at h
    push_neg at h
    unfold splitOnChar
    rw [if_neg (fun hc => h.1 hc.symm), ih h.2]

theorem splitOnChar_append_sep {sep : Char} {xs : List Char} (ys : List Char)
    (h : sep ∉ xs) :
    splitOnChar sep (xs ++ sep :: ys) = xs :: splitOnChar sep ys := by
  induction xs with
  | nil => simp [splitOnChar]
  | cons x xs ih =>
    rw [List.mem_cons] at h
    push_neg at h
    rw [List.cons_append]
    rw [splitOnChar]
    rw [if_neg (fun hc => h.1 hc.symm), ih h.2]

theorem bytes_recompose {a : Nat} (ha : a < 4294967296) :
    ((a >>> 24) &&& 255) * 16777216 + ((a >>> 16) &&& 255) * 65536 +
      ((a >>> 8) &&& 255) * 256 + (a &&& 255) = a := by
  have h255 : (255 : Nat) = 2 ^ 8 - 1 := by norm_num
  rw [h255]
  rw [Nat.and_pow_two_sub_one_eq_mod, Nat.and_pow_two_sub_one_eq_mod,
    Nat.and_pow_two_sub_one_eq_mod, Nat.and_pow_two_sub_one_eq_mod]
  rw [Nat.shiftRight_eq_div_pow, Nat.shiftRight_eq_div_pow,
    Nat.shiftRight_eq_div_pow]
  have e8 : (2 : Nat) ^ 8 = 256 := by norm_num
  have e16 : (2 : Nat) ^ 16 = 65536 := by norm_num
  have e24 : (2 : Nat) ^ 24 = 16777216 := by norm_num
  rw [e8, e16, e24]
  omega

/-- Any syntactically valid IPv4 CIDR token — canonical or not — parses to
the entry whose base is the given address masked to the prefix. -/
theorem parse_normalizes (a p : Nat) (ha : a < 4294967296) (hp : p ≤ 32) :
    ipNetworkParse (renderV4 a ++ "/" ++ natToDec p) =
      Except.ok ⟨Family.v4, a &&& netmaskVal 32 p, p⟩ := by
  obtain ⟨hq1, hd1, hs1⟩ := octet_facts ((a >>> 24) &&& 255) (byte_lt_256 _)
  obtain ⟨hq2, hd2, hs2⟩ := octet_facts ((a >>> 16) &&& 255) (byte_lt_256 _)
  obtain ⟨hq3, hd3, hs3⟩ := octet_facts ((a >>> 8) &&& 255) (byte_lt_256 _)
  obtain ⟨hq4, hd4, hs4⟩ := octet_facts (a &&& 255) (byte_lt_256 _)
  obtain ⟨hqp, hsp⟩ := prefixLen_facts p (by omega)
  have hne : ('/' : Char) ≠ '.' := by decide
  have hslashA :
      '/' ∉ natToDigitsAux (((a >>> 24) &&& 255) + 1) ((a >>> 24) &&& 255) ++
        '.' :: (natToDigitsAux (((a >>> 16) &&& 255) + 1) ((a >>> 16) &&& 255) ++
          '.' :: (natToDigitsAux (((a >>> 8) &&& 255) + 1) ((a >>> 8) &&& 255) ++
            '.' :: natToDigitsAux ((a &&& 255) + 1) (a &&& 255))) := by
    simp [List.mem_append, List.mem_cons, hs1, hs2, hs3, hs4, hne]
  have hdata : (renderV4 a ++ "/" ++ natToDec p).toList =
      (natToDigitsAux (((a >>> 24) &&& 255) + 1) ((a >>> 24) &&& 255) ++
        '.' :: (natToDigitsAux (((a >>> 16) &&& 255) + 1) ((a >>> 16) &&& 255) ++
          '.' :: (natToDigitsAux (((a >>> 8) &&& 255) + 1) ((a >>> 8) &&& 255) ++
            '.' :: natToDigitsAux ((a &&& 255) + 1) (a &&& 255)))) ++
        '/' :: natToDigitsAux (p + 1) p := by
    simp [String.toList, renderV4, natToDec, String.data_append, dot_data,
      slash_data, List.append_assoc]
  have hsplitA :
      splitOnChar '.'
        (natToDigitsAux (((a >>> 24) &&& 255) + 1) ((a >>> 24) &&& 255) ++
          '.' :: (natToDigitsAux (((a >>> 16) &&& 255) + 1) ((a >>> 16) &&& 255) ++
            '.' :: (natToDigitsAux (((a >>> 8) &&& 255) + 1) ((a >>> 8) &&& 255) ++
              '.' :: natToDigitsAux ((a &&& 255) + 1) (a &&& 255)))) =
        [natToDigitsAux (((a >>> 24) &&& 255) + 1) ((a >>> 24) &&& 255),
          natToDigitsAux (((a >>> 16) &&& 255) + 1) ((a >>> 16) &&& 255),
          natToDigitsAux (((a >>> 8) &&& 255) + 1) ((a >>> 8) &&& 255),
          natToDigitsAux ((a &&& 255) + 1) (a &&& 255)] := by
    rw [splitOnChar_append_sep _ hd1, splitOnChar_append_sep _ hd2,
      splitOnChar_append_sep _ hd3, splitOnChar_not_mem hd4]
  have hparseA : parseIPv4chars
      (natToDigitsAux (((a >>> 24) &&& 255) + 1) ((a >>> 24) &&& 255) ++
        '.' :: (natToDigitsAux (((a >>> 16) &&& 255) + 1) ((a >>> 16) &&& 255) ++
          '.' :: (natToDigitsAux (((a >>> 8) &&& 255) + 1) ((a >>> 8) &&& 255) ++
            '.' :: natToDigitsAux ((a &&& 255) + 1) (a &&& 255)))) = some a := by
    unfold parseIPv4chars
    rw [hsplitA]
    simp only [hq1, hq2, hq3, hq4]
    rw [bytes_recompose ha]
  unfold ipNetworkParse
  rw [hdata, splitOnChar_append_sep _ hslashA, splitOnChar_not_mem hsp]
  simp only [hparseA, hqp]

/-! ### Claims -/

/-- Claim C1, counterexample: with both `10.0.0.0/8` and `10.1.2.3/32`
stored, the query for `10.1.2.3` reports the `/8` entry, although the stored
`/32` entry also contains the address and has the greater prefix length —
the scan returns the first match in iteration order, not the most specific
one, so longest-prefix-match fails. -/
theorem C1_lpm_counterexample :
    is_blocked [⟨Family.v4, 167772160, 8⟩, ⟨Family.v4, 167838211, 32⟩]
        "10.1.2.3" = (true, "10.0.0.0/8") ∧
    ipAddressParse "10.1.2.3" = Except.ok ⟨Family.v4, 167838211⟩ ∧
    addrInNetwork ⟨Family.v4, 167838211⟩ ⟨Family.v4, 167838211, 32⟩ = true ∧
    renderNetwork ⟨Family.v4, 167838211, 32⟩ = "10.1.2.3/32" ∧
    ("10.1.2.3/32" : String) ≠ "10.0.0.0/8" ∧ (8 : Nat) < 32 :=
  ⟨by decide, rfl, by decide, by decide, by decide, by decide⟩

/-- Claim C1, amended: when the query reports a match, the reported entry is
the first stored entry in iteration order that contains the address — every
entry before it fails the containment test — with no guarantee about prefix
length. -/
theorem C1_query_first_match (st : List NetworkEntry) (s r : String)
    (h : is_blocked st s = (true, r)) :
    ∃ ip e pre post, ipAddressParse s = Except.ok ip ∧ st = pre ++ e :: post ∧
      addrInNetwork ip e = true ∧ (∀ x ∈ pre, addrInNetwork ip x = false) ∧
      r = renderNetwork e := by
  unfold is_blocked at h
  split at h
  · rename_i ip hip
    split at h
    · rename_i e he
      have hr : r = renderNetwork e := by
        cases h
        rfl
      obtain ⟨hpe, pre, post, hst, hall⟩ := List.find?_eq_some.1 he
      refine ⟨ip, e, pre, post, hip, hst, hpe, ?_, hr⟩
      intro x hx
      simpa using hall x hx
    · simp at h
  · simp at h

/-- Claim C1, witness for the amended theorem at the two-entry state. -/
theorem C1_query_first_match_witness :
    ∃ ip e pre post,
      ipAddressParse "10.1.2.3" = Except.ok ip ∧
      ([⟨Family.v4, 167772160, 8⟩, ⟨Family.v4, 167838211, 32⟩] :
        List NetworkEntry) = pre ++ e :: post ∧
      addrInNetwork ip e = true ∧ (∀ x ∈ pre, addrInNetwork ip x = false) ∧
      "10.0.0.0/8" = renderNetwork e :=
  C1_query_first_match [⟨Family.v4, 167772160, 8⟩, ⟨Family.v4, 167838211, 32⟩]
    "10.1.2.3" "10.0.0.0/8" (by decide)

/-- Claim C2, counterexample: loading `10.0.0.0/8` then `10.1.2.3/32` yields
a two-entry set, not the single entry the claim asserts — the covered `/32`
is kept, since `set.add` drops exact duplicates only. -/
theorem C2_subsumption_counterexample :
    (load_blocklist [] ["10.0.0.0/8", "10.1.2.3/32"]).1.length ≠ 1 := by
  decide

/-- Claim C2, amended: loading `10.0.0.0/8` then `10.1.2.3/32` yields both
entries, and in general inserting an entry leaves the set unchanged exactly
when the identical entry is already present — coverage by a broader entry
does not suppress an insert. -/
theorem C2_insert_keeps_covered :
    (load_blocklist [] ["10.0.0.0/8", "10.1.2.3/32"]).1 =
      [⟨Family.v4, 167772160, 8⟩, ⟨Family.v4, 167838211, 32⟩] ∧
    ∀ (st : List NetworkEntry) (n : NetworkEntry), setAdd st n = st ↔ n ∈ st := by
  refine ⟨by decide, ?_⟩
  intro st n
  constructor
  · intro h
    by_contra hn
    have hlen := congrArg List.length h
    simp [setAdd, hn] at hlen
  · intro h
    simp [setAdd, h]

/-- Claim C2, witness for the amended theorem: re-adding a present entry is
a no-op. -/
theorem C2_insert_keeps_covered_witness :
    setAdd [⟨Family.v4, 167772160, 8⟩] ⟨Family.v4, 167772160, 8⟩ =
      [⟨Family.v4, 167772160, 8⟩] :=
  (C2_insert_keeps_covered.2 _ _).mpr (by decide)

/-- Claim C3, counterexample: an unknown export format writes an empty file
and still prints the usual success message — no error reaches the caller of
`export_to_format` (only the CLI argument parser restricts `--format`). -/
theorem C3_format_counterexample :
    (export_to_format [⟨Family.v4, 16843009, 32⟩] "blocked.txt" "xml").1 = "" ∧
    (export_to_format [⟨Family.v4, 16843009, 32⟩] "blocked.txt" "xml").2 =
      "Exported 1 entries to blocked.txt (xml format)" :=
  ⟨by decide, by decide⟩

/-- Claim C3, amended: for any format value outside the five handled ones,
the export silently writes nothing and reports success. -/
theorem C3_unknown_format_silent (st : List NetworkEntry) (file fmt : String)
    (h : fmt ∉ (["plain", "iptables", "nginx", "apache", "json"] : List String)) :
    export_to_format st file fmt =
      ("", "Exported " ++ natToDec st.length ++ " entries to " ++ file ++
        " (" ++ fmt ++ " format)") := by
  simp only [List.mem_cons, List.not_mem_nil, or_false, not_or] at h
  obtain ⟨h1, h2, h3, h4, h5⟩ := h
  simp [export_to_format, beq_iff_eq, h1, h2, h3, h4, h5]

/-- Claim C3, witness for the amended theorem at format `xml`. -/
theorem C3_unknown_format_silent_witness :
    export_to_format [] "out.txt" "xml" =
      ("", "Exported " ++ natToDec ([] : List NetworkEntry).length ++
        " entries to " ++ "out.txt" ++ " (" ++ "xml" ++ " format)") :=
  C3_unknown_format_silent [] "out.txt" "xml" (by decide)

/-- Claim C4: whenever the membership query reports a match, the queried
address really lies in the reported entry's numeric range
`[base, base + 2^(width - prefixLen))`. -/
theorem C4_query_in_range (st : List NetworkEntry) (s r : String)
    (h : is_blocked st s = (true, r)) :
    ∃ ip e, ipAddressParse s = Except.ok ip ∧ e ∈ st ∧ r = renderNetwork e ∧
      e.base ≤ ip.value ∧
      ip.value < e.base + 2 ^ (e.family.width - e.prefixLen) := by
  unfold is_blocked at h
  split at h
  · rename_i ip hip
    split at h
    · rename_i e he
      have hr : r = renderNetwork e := by
        cases h
        rfl
      have hmem : addrInNetwork ip e = true := List.find?_some he
      unfold addrInNetwork at hmem
      simp only [Bool.and_eq_true, beq_iff_eq] at hmem
      obtain ⟨hf, hb⟩ := hmem
      obtain ⟨hf4, hlt⟩ := ipAddressParse_ok hip
      have hv : ip.value < 2 ^ e.family.width := by
        rw [← hf, hf4]
        simpa [Family.width] using hlt
      have hm := mask_range (x := ip.value) (w := e.family.width)
        (p := e.prefixLen) hv
      rw [hb] at hm
      exact ⟨ip, e, hip, List.mem_of_find?_eq_some he, hr, hm.1, hm.2⟩
    · simp at h
  · simp at h

/-- Claim C4, witness at a one-entry state. -/
theorem C4_query_in_range_witness :
    ∃ ip e, ipAddressParse "10.1.2.3" = Except.ok ip ∧
      e ∈ ([⟨Family.v4, 167772160, 8⟩] : List NetworkEntry) ∧
      "10.0.0.0/8" = renderNetwork e ∧ e.base ≤ ip.value ∧
      ip.value < e.base + 2 ^ (e.family.width - e.prefixLen) :=
  C4_query_in_range [⟨Family.v4, 167772160, 8⟩] "10.1.2.3" "10.0.0.0/8"
    (by decide)

/-- Claim C5: the exported sequence is sorted by family (v4 before v6), then
numeric base address, then ascending prefix length, and any two insertion
orders of the same entries materialise the identical exported sequence. -/
theorem C5_entries_canonical_order (l₁ l₂ : List NetworkEntry)
    (h : l₁.Perm l₂) :
    List.Sorted netLe (sort_networks (buildSet l₁)) ∧
    sort_networks (buildSet l₁) = sort_networks (buildSet l₂) :=
  ⟨sorted_sort_networks _, sort_networks_eq_of_perm (buildSet_perm h)⟩

/-- Claim C5, witness: two opposite insertion orders of the same two
entries. -/
theorem C5_entries_canonical_order_witness :
    List.Sorted netLe (sort_networks (buildSet
      [⟨Family.v4, 33686016, 24⟩, ⟨Family.v4, 16843009, 32⟩])) ∧
    sort_networks (buildSet
        [⟨Family.v4, 33686016, 24⟩, ⟨Family.v4, 16843009, 32⟩]) =
      sort_networks (buildSet
        [⟨Family.v4, 16843009, 32⟩, ⟨Family.v4, 33686016, 24⟩]) :=
  C5_entries_canonical_order
    [⟨Family.v4, 33686016, 24⟩, ⟨Family.v4, 16843009, 32⟩]
    [⟨Family.v4, 16843009, 32⟩, ⟨Family.v4, 33686016, 24⟩] (by decide)

/-- Claim C6: a malformed line adds one warning and is skipped; the returned
count is exactly the number of successfully parsed lines, and every entry
parsed from a valid line is in the resulting set — no line aborts the
load. -/
theorem C6_load_partial_failure (st : List NetworkEntry) (lines : List String) :
    (load_blocklist st lines).2.1 = (goodEntries lines).length ∧
    (load_blocklist st lines).2.2.length = badLineCount lines ∧
    ∀ e ∈ goodEntries lines, e ∈ (load_blocklist st lines).1 := by
  refine ⟨?_, ?_, ?_⟩
  · have h := loadLines_count lines st 0 [] 1
    simpa [load_blocklist] using h
  · have h := loadLines_warns lines st 0 [] 1
    simpa [load_blocklist] using h
  · intro e he
    exact mem_loadLines lines (Or.inr he)

/-- Claim C6, witness: a malformed token between two valid lines. -/
theorem C6_load_partial_failure_witness :
    (load_blocklist [] ["1.1.1.1", "bad-token", "2.2.2.0/24"]).2.1 =
      (goodEntries ["1.1.1.1", "bad-token", "2.2.2.0/24"]).length ∧
    (load_blocklist [] ["1.1.1.1", "bad-token", "2.2.2.0/24"]).2.2.length =
      badLineCount ["1.1.1.1", "bad-token", "2.2.2.0/24"] ∧
    (⟨Family.v4, 16843009, 32⟩ : NetworkEntry) ∈
      (load_blocklist [] ["1.1.1.1", "bad-token", "2.2.2.0/24"]).1 := by
  obtain ⟨h1, h2, h3⟩ :=
    C6_load_partial_failure [] ["1.1.1.1", "bad-token", "2.2.2.0/24"]
  exact ⟨h1, h2, h3 _ (by decide)⟩

/-- Claim C7, witness for `parse_normalizes`: the non-canonical token
`10.1.2.3/8` is accepted and masked to `10.0.0.0/8`. -/
theorem parse_normalizes_witness :
    167838211 < 4294967296 ∧ (8 : Nat) ≤ 32 ∧
    ipNetworkParse (renderV4 167838211 ++ "/" ++ natToDec 8) =
      Except.ok ⟨Family.v4, 167838211 &&& netmaskVal 32 8, 8⟩ :=
  ⟨by norm_num, by norm_num, parse_normalizes 167838211 8 (by norm_num) (by norm_num)⟩

/-- Claim C8: exporting the set loaded from `1.1.1.1` and `2.2.2.0/24` in
`json` format writes an object with exactly the keys `blocked_ips` (the
sorted network strings) and `total_count` (the entry count), here
`["1.1.1.1/32", "2.2.2.0/24"]` and `2`. -/
theorem C8_json_export :
    (export_to_format (load_blocklist [] ["1.1.1.1", "2.2.2.0/24"]).1
        "blocklist.json" "json").1 =
      renderJsonExport ["1.1.1.1/32", "2.2.2.0/24"] 2 ∧
    renderJsonExport ["1.1.1.1/32", "2.2.2.0/24"] 2 =
      "\x7b\n  \"blocked_ips\": [\n    \"1.1.1.1/32\",\n    \"2.2.2.0/24\"\n  ],\n  \"total_count\": 2\n\x7d" :=
  ⟨by decide, by decide⟩

set_option maxRecDepth 20000 in
/-- Claim C9, counterexample: a 129-entry set with no matching entry forces
the scan through all 129 iterations — beyond the 32- or 128-step bound the
claim asserts, and growing with the set size. -/
theorem C9_steps_counterexample :
    ((List.range 129).map
        (fun k => (⟨Family.v4, (k + 1) * 16777216, 32⟩ : NetworkEntry))).length
      = 129 ∧
    128 < is_blocked_steps
        ((List.range 129).map
          (fun k => (⟨Family.v4, (k + 1) * 16777216, 32⟩ : NetworkEntry)))
        "0.0.0.1" :=
  ⟨by decide, by decide⟩

/-- Claim C9, amended: the query scan is linear in the stored set — one
iteration per stored entry at most, with no bound in the address
bit-length. -/
theorem C9_steps_linear (st : List NetworkEntry) (s : String) :
    is_blocked_steps st s ≤ st.length := by
  unfold is_blocked_steps
  split
  · exact scanSteps_le _ _
  · exact Nat.zero_le _

/-- Claim C10: a query with text that fails to parse returns `False`
together with a diagnostic that starts with "Invalid IP:"; no exception
escapes (`is_blocked` is total), and the method only reads the stored
set. -/
theorem C10_invalid_query (st : List NetworkEntry) (s m : String)
    (h : ipAddressParse s = Except.error m) :
    is_blocked st s = (false, "Invalid IP: " ++ m) ∧
    ∃ rest, (is_blocked st s).2 = "Invalid IP:" ++ rest := by
  have hq : is_blocked st s = (false, "Invalid IP: " ++ m) := by
    unfold is_blocked
    rw [h]
  refine ⟨hq, " " ++ m, ?_⟩
  rw [hq]
  show "Invalid IP: " ++ m = "Invalid IP:" ++ (" " ++ m)
  rw [← String.append_assoc]
  have hlit : ("Invalid IP:" ++ " " : String) = "Invalid IP: " := rfl
  rw [hlit]

/-- Claim C10, witness at the unparseable text `999.1.2.3`. -/
theorem C10_invalid_query_witness :
    is_blocked [] "999.1.2.3" =
      (false, "Invalid IP: " ++
        "'999.1.2.3' does not appear to be an IPv4 or IPv6 address") ∧
    ∃ rest, (is_blocked [] "999.1.2.3").2 = "Invalid IP:" ++ rest :=
  C10_invalid_query [] "999.1.2.3"
    "'999.1.2.3' does not appear to be an IPv4 or IPv6 address" rfl

end IPSec
